import Mathlib

/-!
Formalization of the AURA client-side coverage estimator.

The repository computes a per-repository "test coverage" number in two
places: the Repositories list page (`loadRepositories`) and the
`RepositoryDetails` page.  Both partition a file list into source files and
test files with a substring heuristic, match test files and backend
generated-test records to source files, collect the matched source
relative paths in a set, and report `100 * |covered| / |sourceFiles|`.

The two copies are embedded separately below (namespaces `Repos` for the
list page and `RD` for the details page), each transcribed from its own
site, on top of shared models of the JavaScript string primitives used
(`toLowerCase`, `includes`, one-shot `replace`, anchored regex stripping,
`substring(0, lastIndexOf('/'))`, `split('/').pop()`).
-/

/-! ## JavaScript string primitives -/

/-- ASCII lower-casing, modelling JS `String.prototype.toLowerCase` on the
ASCII file names and paths this code handles. -/
def toLowerStr (s : String) : String := ⟨s.data.map Char.toLower⟩

/-- Does `pat` occur as a contiguous run inside `l`? -/
def containsSub (pat : List Char) : List Char → Bool
  | [] => pat.isEmpty
  | c :: cs => pat.isPrefixOf (c :: cs) || containsSub pat cs

/-- JS `s.includes(pat)`. -/
def includes (s pat : String) : Bool := containsSub pat.data s.data

/-- Replace the first occurrence of `pat` in the list (JS one-shot
`String.prototype.replace` with a non-global pattern). -/
def replaceFirstL (pat repl : List Char) : List Char → List Char
  | [] => if pat.isPrefixOf ([] : List Char) then repl else []
  | c :: cs =>
      if pat.isPrefixOf (c :: cs) then repl ++ (c :: cs).drop pat.length
      else c :: replaceFirstL pat repl cs

/-- JS `s.replace(pat, repl)` for a plain (non-anchored, non-global)
pattern: only the first occurrence is replaced. -/
def replaceFirst (s pat repl : String) : String :=
  ⟨replaceFirstL pat.data repl.data s.data⟩

/-- JS `s.startsWith(pre)` (used to model `^`-anchored regexes). -/
def startsWith (s pre : String) : Bool := pre.data.isPrefixOf s.data

/-- JS `s.endsWith(suf)` (used to model `$`-anchored regexes). -/
def endsWith (s suf : String) : Bool := suf.data.isSuffixOf s.data

/-- Drop the first `n` characters. -/
def dropStart (s : String) (n : Nat) : String := ⟨s.data.drop n⟩

/-- Drop the last `n` characters. -/
def dropEnd (s : String) (n : Nat) : String := ⟨s.data.take (s.data.length - n)⟩

/-- JS `s.replace(/^pat/, '')` for a literal `pat`. -/
def stripStart (pat s : String) : String :=
  if startsWith s pat then dropStart s pat.data.length else s

/-- JS `s.replace(/\.(py|js|ts|java)$/, '')`: remove a known code
extension at the end of the string, if present. -/
def stripExt4 (s : String) : String :=
  if endsWith s ".py" then dropEnd s 3
  else if endsWith s ".js" then dropEnd s 3
  else if endsWith s ".ts" then dropEnd s 3
  else if endsWith s ".java" then dropEnd s 5
  else s

/-- JS `s.replace(/\.(py|js|ts|jsx|tsx|java)$/, '')`. -/
def stripExt6 (s : String) : String :=
  if endsWith s ".py" then dropEnd s 3
  else if endsWith s ".js" then dropEnd s 3
  else if endsWith s ".ts" then dropEnd s 3
  else if endsWith s ".jsx" then dropEnd s 4
  else if endsWith s ".tsx" then dropEnd s 4
  else if endsWith s ".java" then dropEnd s 5
  else s

/-- JS `s.substring(0, s.lastIndexOf('/'))`: the directory part of a path,
`""` when the path has no slash (`lastIndexOf` returns `-1` and
`substring(0, -1)` clamps to the empty string). -/
def dirOf (s : String) : String :=
  ⟨((s.data.reverse.dropWhile (fun c => c ≠ '/')).drop 1).reverse⟩

/-- JS `s.split('/').pop()`: the part of the path after the last slash. -/
def lastSegment (s : String) : String :=
  ⟨(s.data.reverse.takeWhile (fun c => c ≠ '/')).reverse⟩

/-- JS truthiness of an optional number field (`undefined`, `null` and `0`
are falsy). -/
def truthyNat : Option Nat → Bool
  | some n => n != 0
  | none => false

/-- JS truthiness of an optional string field (`undefined`, `null` and the
empty string are falsy). -/
def truthyStr : Option String → Bool
  | some s => s != ""
  | none => false

/-! ## Data model

`RepoFile` is the shape returned by the backend file-listing endpoint;
`GeneratedTest` and `Analysis` are the backend records used by the
generated-test matching (only the fields the estimator reads are kept). -/

structure RepoFile where
  name : String
  relative_path : String
  extension : String
  deriving DecidableEq, Repr

structure GeneratedTest where
  analysis_id : Option Nat
  test_file_path : Option String
  deriving DecidableEq, Repr

structure Analysis where
  id : Nat
  file_path : Option String
  deriving DecidableEq, Repr

/-! ## The Repositories list page (`loadRepositories`) -/

namespace Repos

/-- The `testPatterns` literal of `loadRepositories`, duplicates
included. -/
def testPatterns : List String :=
  ["test_", "_test", ".test.", ".spec.", "tests/", "test/", "__test__",
   "test/", "spec/", "tests/", "test/", "__tests__"]

/-- `isTestFile` from `loadRepositories`. -/
def isTestFile (filePath fileName : String) : Bool :=
  let lowerPath := toLowerStr filePath
  let lowerName := toLowerStr fileName
  testPatterns.any fun pattern =>
    includes lowerPath pattern || includes lowerName pattern

/-- The code-extension allow-list shared by both pages. -/
def allowedExtensions : List String :=
  [".py", ".js", ".ts", ".jsx", ".tsx", ".java", ".cpp", ".c", ".h",
   ".cs", ".go", ".rs", ".rb", ".php"]

/-- `allCodeFiles`: keep only files whose extension is allow-listed. -/
def allCodeFiles (files : List RepoFile) : List RepoFile :=
  files.filter fun f => allowedExtensions.contains (toLowerStr f.extension)

/-- `sourceFiles`: allow-listed files not classified as tests. -/
def sourceFilesOf (files : List RepoFile) : List RepoFile :=
  (allCodeFiles files).filter fun f => !(isTestFile f.relative_path f.name)

/-- `testFiles`: allow-listed files classified as tests. -/
def testFilesOf (files : List RepoFile) : List RepoFile :=
  (allCodeFiles files).filter fun f => isTestFile f.relative_path f.name

/-- `potentialSourceName`: the four one-shot replacements applied to the
lower-cased test file name. -/
def potentialSourceName (testName : String) : String :=
  replaceFirst
    (replaceFirst
      (replaceFirst (stripStart "test_" testName) "_test." ".")
      ".test." ".")
    ".spec." "."

/-- `testName.replace(/^(test_|_test|\.test|\.spec)/, '')`: the anchored
alternation tried left to right. -/
def stripTestMarker (n : String) : String :=
  if startsWith n "test_" then dropStart n 5
  else if startsWith n "_test" then dropStart n 5
  else if startsWith n ".test" then dropStart n 5
  else if startsWith n ".spec" then dropStart n 5
  else n

/-- The predicate passed to `sourceFiles.find` when matching one test file
(`testName`/`testPath` already lower-cased, `potential` the normalized
test name). -/
def sourceMatches (testName testPath potential : String)
    (sourceFile : RepoFile) : Bool :=
  let sourceName := toLowerStr sourceFile.name
  let sourcePath := toLowerStr sourceFile.relative_path
  if sourceName == potential then true
  else
    let testDir := dirOf testPath
    let sourceDir := dirOf sourcePath
    if (testDir == sourceDir || includes testDir "test"
          || includes testDir "tests")
        && (stripExt4 (stripTestMarker testName) == stripExt4 sourceName)
    then true
    else false

/-- Match one test file against the source files; returns the relative
path of the first matching source file, as the page records it. -/
def matchTestFileToSource (sourceFiles : List RepoFile)
    (testFile : RepoFile) : Option String :=
  let testName := toLowerStr testFile.name
  let testPath := toLowerStr testFile.relative_path
  let potential := potentialSourceName testName
  (sourceFiles.find? (sourceMatches testName testPath potential)).map
    fun s => s.relative_path

/-- The predicate passed to `sourceFiles.find` when matching a resolved
analysis path. -/
def genMatches (analysisPath : String) (f : RepoFile) : Bool :=
  let filePath := toLowerStr f.relative_path
  let fileName := toLowerStr f.name
  includes analysisPath fileName || filePath == analysisPath

/-- Match one generated-test record: resolve `analysis_id` against the
analyses list and, when the analysis has a truthy `file_path`, look for a
source file it matches.  This page has no `test_file_path` fallback. -/
def matchGeneratedTest (sourceFiles : List RepoFile)
    (analyses : List Analysis) (t : GeneratedTest) : Option RepoFile :=
  match analyses.find? fun a => some a.id == t.analysis_id with
  | some ta =>
      if truthyStr ta.file_path then
        sourceFiles.find? (genMatches (toLowerStr (ta.file_path.getD "")))
      else none
  | none => none

/-- The `sourceFilesWithTests` set after the `testFiles.forEach` loop. -/
def coveredByTestFiles (sourceFiles testFiles : List RepoFile) :
    Finset String :=
  testFiles.foldl
    (fun acc t =>
      (matchTestFileToSource sourceFiles t).elim acc fun p => insert p acc)
    ∅

/-- The `sourceFilesWithTests` set after both loops (test files, then
generated tests). -/
def coveredSourcePaths (sourceFiles testFiles : List RepoFile)
    (tests : List GeneratedTest) (analyses : List Analysis) :
    Finset String :=
  tests.foldl
    (fun acc t =>
      (matchGeneratedTest sourceFiles analyses t).elim acc
        fun f => insert f.relative_path acc)
    (coveredByTestFiles sourceFiles testFiles)

/-- `totalCoverage`: percentage of source files with a matched test,
`0` when there are no source files. -/
def totalCoverage (sourceFiles testFiles : List RepoFile)
    (tests : List GeneratedTest) (analyses : List Analysis) : ℚ :=
  if 0 < sourceFiles.length then
    ((coveredSourcePaths sourceFiles testFiles tests analyses).card : ℚ)
      / (sourceFiles.length : ℚ) * 100
  else 0

end Repos

/-! ## The `RepositoryDetails` page -/

namespace RD

/-- The `testPatterns` literal of `RepositoryDetails`, duplicates
included (textually identical to the list page's). -/
def testPatterns : List String :=
  ["test_", "_test", ".test.", ".spec.", "tests/", "test/", "__test__",
   "test/", "spec/", "tests/", "test/", "__tests__"]

/-- `isTestFile` from `RepositoryDetails`. -/
def isTestFile (filePath fileName : String) : Bool :=
  let lowerPath := toLowerStr filePath
  let lowerName := toLowerStr fileName
  testPatterns.any fun pattern =>
    includes lowerPath pattern || includes lowerName pattern

/-- The code-extension allow-list of `RepositoryDetails`. -/
def allowedExtensions : List String :=
  [".py", ".js", ".ts", ".jsx", ".tsx", ".java", ".cpp", ".c", ".h",
   ".cs", ".go", ".rs", ".rb", ".php"]

/-- `allCodeFiles` from `RepositoryDetails`. -/
def allCodeFiles (files : List RepoFile) : List RepoFile :=
  files.filter fun f => allowedExtensions.contains (toLowerStr f.extension)

/-- `sourceFiles` from `RepositoryDetails`. -/
def sourceFilesOf (files : List RepoFile) : List RepoFile :=
  (allCodeFiles files).filter fun f => !(isTestFile f.relative_path f.name)

/-- `testFiles` from `RepositoryDetails`. -/
def testFilesOf (files : List RepoFile) : List RepoFile :=
  (allCodeFiles files).filter fun f => isTestFile f.relative_path f.name

/-- `potentialSourceName` in `matchTestFileToSource`: six one-shot
replacements (the list page has only the first four). -/
def potentialSourceName (testName : String) : String :=
  replaceFirst
    (replaceFirst
      (replaceFirst
        (replaceFirst
          (replaceFirst (stripStart "test_" testName) "_test." ".")
          ".test." ".")
        ".spec." ".")
      "e2e." ".")
    ".e2e." "."

/-- `testName.replace(/^(test_|_test|\.test|\.spec|e2e|\.e2e)/, '')`. -/
def stripTestMarker (n : String) : String :=
  if startsWith n "test_" then dropStart n 5
  else if startsWith n "_test" then dropStart n 5
  else if startsWith n ".test" then dropStart n 5
  else if startsWith n ".spec" then dropStart n 5
  else if startsWith n "e2e" then dropStart n 3
  else if startsWith n ".e2e" then dropStart n 4
  else n

/-- The predicate of `matchTestFileToSource`'s `sourceFiles.find`: exact
normalized-name equality, then directory-relative base-name equality, then
the two loose substring fallbacks. -/
def sourceMatches (testName testPath potential : String)
    (sourceFile : RepoFile) : Bool :=
  let sourceName := toLowerStr sourceFile.name
  let sourcePath := toLowerStr sourceFile.relative_path
  if sourceName == potential then true
  else
    let testDir := dirOf testPath
    let sourceDir := dirOf sourcePath
    if (testDir == sourceDir || includes testDir "test"
          || includes testDir "tests")
        && (stripExt4 (stripTestMarker testName) == stripExt4 sourceName)
    then true
    else if includes testPath (stripExt4 sourceName) then true
    else if includes sourcePath (stripExt4 (stripTestMarker testName)) then
      true
    else false

/-- `matchTestFileToSource` from `RepositoryDetails`. -/
def matchTestFileToSource (sourceFiles : List RepoFile)
    (testFile : RepoFile) : Option String :=
  let testName := toLowerStr testFile.name
  let testPath := toLowerStr testFile.relative_path
  let potential := potentialSourceName testName
  (sourceFiles.find? (sourceMatches testName testPath potential)).map
    fun s => s.relative_path

/-- The six-way `sourceFiles.find` predicate used when a generated test
resolves through `analysis_id` to an analysis `file_path`. -/
def genAnalysisMatches (analysisPath : String) (f : RepoFile) : Bool :=
  let filePath := toLowerStr f.relative_path
  let fileName := toLowerStr f.name
  includes analysisPath fileName || filePath == analysisPath
    || includes analysisPath filePath || includes filePath analysisPath
    || fileName == lastSegment analysisPath
    || lastSegment filePath == lastSegment analysisPath

/-- The `sourceFiles.find` predicate of the `test_file_path` fallback. -/
def genFallbackMatches (testFilePath potential : String)
    (f : RepoFile) : Bool :=
  let fileName := toLowerStr f.name
  let filePath := toLowerStr f.relative_path
  fileName == potential || includes testFilePath fileName
    || includes filePath (stripExt6 potential)

/-- The `analysis_id` branch of the details page's generated-test
matching: a truthy `analysis_id` is resolved against the analyses, and
an analysis with a truthy `file_path` is matched against the source
files. -/
def matchViaAnalysisId (sourceFiles : List RepoFile)
    (analyses : List Analysis) (t : GeneratedTest) : Option RepoFile :=
  if truthyNat t.analysis_id then
    match analyses.find? fun a => some a.id == t.analysis_id with
    | some ta =>
        if truthyStr ta.file_path then
          sourceFiles.find?
            (genAnalysisMatches (toLowerStr (ta.file_path.getD "")))
        else none
    | none => none
  else none

/-- The `test_file_path` fallback branch of the details page's
generated-test matching. -/
def matchViaTestFilePath (sourceFiles : List RepoFile)
    (t : GeneratedTest) : Option RepoFile :=
  if truthyStr t.test_file_path then
    let testFilePath := toLowerStr (t.test_file_path.getD "")
    let testFileName := lastSegment testFilePath
    let potential := potentialSourceName testFileName
    sourceFiles.find? (genFallbackMatches testFilePath potential)
  else none

/-- Match one generated-test record on the details page: first via a
truthy `analysis_id` resolved against the analyses, then, when that
produced nothing, via a truthy `test_file_path`. -/
def matchGeneratedTest (sourceFiles : List RepoFile)
    (analyses : List Analysis) (t : GeneratedTest) : Option RepoFile :=
  match matchViaAnalysisId sourceFiles analyses t with
  | some f => some f
  | none => matchViaTestFilePath sourceFiles t

/-- The `sourceFilesWithTests` set after the `testFiles.forEach` loop. -/
def coveredByTestFiles (sourceFiles testFiles : List RepoFile) :
    Finset String :=
  testFiles.foldl
    (fun acc t =>
      (matchTestFileToSource sourceFiles t).elim acc fun p => insert p acc)
    ∅

/-- The `sourceFilesWithTests` set after both loops. -/
def coveredSourcePaths (sourceFiles testFiles : List RepoFile)
    (tests : List GeneratedTest) (analyses : List Analysis) :
    Finset String :=
  tests.foldl
    (fun acc t =>
      (matchGeneratedTest sourceFiles analyses t).elim acc
        fun f => insert f.relative_path acc)
    (coveredByTestFiles sourceFiles testFiles)

/-- `totalCoverage` from `RepositoryDetails`. -/
def totalCoverage (sourceFiles testFiles : List RepoFile)
    (tests : List GeneratedTest) (analyses : List Analysis) : ℚ :=
  if 0 < sourceFiles.length then
    ((coveredSourcePaths sourceFiles testFiles tests analyses).card : ℚ)
      / (sourceFiles.length : ℚ) * 100
  else 0

end RD

/-! ## Partial-field model (JS records with possibly-missing fields)

`RawFile` keeps each field optional, as the records arriving from the
backend can be.  Reading a missing field yields JS `undefined`;
`undefined.toLowerCase()` throws a `TypeError`, modelled as
`Except.error ()`.  The extension filter survives a missing `extension`
because the source guards it (`f.extension?.toLowerCase() || ''`), but
`isTestFile` dereferences `relative_path` and `name` unguarded. -/

structure RawFile where
  name : Option String
  relative_path : Option String
  extension : Option String
  deriving DecidableEq, Repr

/-- `x.toLowerCase()` on a possibly-`undefined` JS string. -/
def jsToLowerE : Option String → Except Unit String
  | some s => Except.ok (toLowerStr s)
  | none => Except.error ()

namespace RD

/-- `isTestFile` as actually invoked on raw records: both arguments are
lower-cased before the pattern scan, and a missing field throws. -/
def isTestFileE (filePath fileName : Option String) : Except Unit Bool := do
  let lowerPath ← jsToLowerE filePath
  let lowerName ← jsToLowerE fileName
  pure (testPatterns.any fun pattern =>
    includes lowerPath pattern || includes lowerName pattern)

/-- The extension allow-list filter on raw records
(`f.extension?.toLowerCase() || ''` never throws). -/
def allCodeFilesJS (files : List RawFile) : List RawFile :=
  files.filter fun f =>
    allowedExtensions.contains ((f.extension.map toLowerStr).getD "")

/-- The source-file partition on raw records:
`allCodeFiles.filter(f => !isTestFile(f.relative_path, f.name))`, with the
exception from `isTestFile` propagating out of the filter. -/
def sourceFilesJS (files : List RawFile) : Except Unit (List RawFile) :=
  (allCodeFilesJS files).filterM fun f => do
    pure (!(← isTestFileE f.relative_path f.name))

end RD

/-! ## Case-variation relations

`caseVariant a b` says the strings differ only in letter case, which is
what changing the case of an input field means.  The record-level
relations extend it to the fields C10 speaks about (`extension` and ids
are kept equal). -/

def caseVariant (a b : String) : Prop := toLowerStr a = toLowerStr b

def optCaseVariant : Option String → Option String → Prop
  | some a, some b => caseVariant a b
  | none, none => True
  | _, _ => False

def fileVariant (f g : RepoFile) : Prop :=
  caseVariant f.name g.name ∧ caseVariant f.relative_path g.relative_path
    ∧ f.extension = g.extension

def genVariant (s t : GeneratedTest) : Prop :=
  s.analysis_id = t.analysis_id
    ∧ optCaseVariant s.test_file_path t.test_file_path

def analysisVariant (a b : Analysis) : Prop :=
  a.id = b.id ∧ optCaseVariant a.file_path b.file_path

/-! ## Generic helper lemmas -/

lemma foldl_elim_eq_union {α β : Type} (m : α → Option β) (g : β → String)
    (l : List α) :
    ∀ init : Finset String,
      l.foldl
          (fun acc t => (m t).elim acc fun b => insert (g b) acc)
          init
        = init ∪ (l.filterMap fun t => (m t).map g).toFinset := by
  induction l with
  | nil => intro init; simp
  | cons x xs ih =>
      intro init
      cases h : m x with
      | none => simp [h, ih, List.filterMap_cons]
      | some b =>
          simp [h, ih, List.filterMap_cons, Finset.insert_union,
            Finset.union_insert]

lemma foldl_elim_id_eq_union {α : Type} (m : α → Option String)
    (l : List α) :
    ∀ init : Finset String,
      l.foldl
          (fun acc t => (m t).elim acc fun p => insert p acc)
          init
        = init ∪ (l.filterMap m).toFinset := by
  induction l with
  | nil => intro init; simp
  | cons x xs ih =>
      intro init
      cases h : m x with
      | none => simp [h, ih, List.filterMap_cons]
      | some b =>
          simp [h, ih, List.filterMap_cons, Finset.insert_union,
            Finset.union_insert]

lemma filterMap_append_single {α : Type} (m : α → Option String)
    (l : List α) (t : α) :
    (l ++ [t]).filterMap m = l.filterMap m ++ (m t).toList := by
  cases h : m t <;> simp [List.filterMap_append, List.filterMap_cons, h]

lemma find?_rel {α : Type} {r : α → α → Prop} {p q : α → Bool} :
    ∀ {l l' : List α}, List.Forall₂ r l l' → (∀ a b, r a b → p a = q b) →
      Option.Rel r (l.find? p) (l'.find? q) := by
  intro l l' h hpq
  induction h with
  | nil => exact Option.Rel.none
  | cons hab htail ih =>
      rename_i a b as bs
      by_cases hpa : p a = true
      · rw [List.find?_cons_of_pos _ hpa,
          List.find?_cons_of_pos _ ((hpq a b hab) ▸ hpa)]
        exact Option.Rel.some hab
      · rw [List.find?_cons_of_neg _ hpa,
          List.find?_cons_of_neg _ ((hpq a b hab) ▸ hpa)]
        exact ih

lemma filterMap_rel {α β : Type} {r : α → α → Prop} {rb : β → β → Prop}
    {f g : α → Option β} :
    ∀ {l l' : List α}, List.Forall₂ r l l' →
      (∀ a b, r a b → Option.Rel rb (f a) (g b)) →
      List.Forall₂ rb (l.filterMap f) (l'.filterMap g) := by
  intro l l' h hfg
  induction h with
  | nil => simp
  | cons hab htail ih =>
      rename_i a b as bs
      have hh := hfg a b hab
      simp only [List.filterMap_cons]
      revert hh
      cases hfa : f a <;> cases hgb : g b <;> intro hh
      · exact ih
      · exact absurd hh (by intro hc; cases hc)
      · exact absurd hh (by intro hc; cases hc)
      · cases hh with
        | some hab2 => exact List.Forall₂.cons hab2 ih

lemma forall₂_map_eq {α β : Type} {g : α → β} {r : α → α → Prop}
    (hg : ∀ a b, r a b → g a = g b) :
    ∀ {l l' : List α}, List.Forall₂ r l l' → l.map g = l'.map g := by
  intro l l' h
  induction h with
  | nil => rfl
  | cons hab htail ih =>
      rename_i a b as bs
      simp [hg a b hab, ih]

/-! ## Structural lemmas about the two implementations -/

lemma repos_matchTestFileToSource_def (sf : List RepoFile) (t : RepoFile) :
    Repos.matchTestFileToSource sf t
      = (sf.find? (Repos.sourceMatches (toLowerStr t.name)
            (toLowerStr t.relative_path)
            (Repos.potentialSourceName (toLowerStr t.name)))).map
          fun s => s.relative_path := rfl

lemma rd_matchTestFileToSource_def (sf : List RepoFile) (t : RepoFile) :
    RD.matchTestFileToSource sf t
      = (sf.find? (RD.sourceMatches (toLowerStr t.name)
            (toLowerStr t.relative_path)
            (RD.potentialSourceName (toLowerStr t.name)))).map
          fun s => s.relative_path := rfl

lemma RD.matchViaTestFilePath_def (sf : List RepoFile) (t : GeneratedTest) :
    RD.matchViaTestFilePath sf t
      = if truthyStr t.test_file_path then
          sf.find? (RD.genFallbackMatches
            (toLowerStr (t.test_file_path.getD ""))
            (RD.potentialSourceName
              (lastSegment (toLowerStr (t.test_file_path.getD "")))))
        else none := rfl

lemma repos_coveredSourcePaths_eq (sf tf : List RepoFile)
    (tests : List GeneratedTest) (analyses : List Analysis) :
    Repos.coveredSourcePaths sf tf tests analyses
      = (tf.filterMap (Repos.matchTestFileToSource sf)).toFinset
        ∪ (tests.filterMap fun t =>
            (Repos.matchGeneratedTest sf analyses t).map
              fun f => f.relative_path).toFinset := by
  unfold Repos.coveredSourcePaths Repos.coveredByTestFiles
  rw [foldl_elim_eq_union (Repos.matchGeneratedTest sf analyses)
      (fun f => f.relative_path) tests,
    foldl_elim_id_eq_union (Repos.matchTestFileToSource sf) tf,
    Finset.empty_union]

lemma rd_coveredSourcePaths_eq (sf tf : List RepoFile)
    (tests : List GeneratedTest) (analyses : List Analysis) :
    RD.coveredSourcePaths sf tf tests analyses
      = (tf.filterMap (RD.matchTestFileToSource sf)).toFinset
        ∪ (tests.filterMap fun t =>
            (RD.matchGeneratedTest sf analyses t).map
              fun f => f.relative_path).toFinset := by
  unfold RD.coveredSourcePaths RD.coveredByTestFiles
  rw [foldl_elim_eq_union (RD.matchGeneratedTest sf analyses)
      (fun f => f.relative_path) tests,
    foldl_elim_id_eq_union (RD.matchTestFileToSource sf) tf,
    Finset.empty_union]

lemma repos_matchTestFileToSource_mem {sf : List RepoFile} {t : RepoFile}
    {p : String} (h : Repos.matchTestFileToSource sf t = some p) :
    ∃ s ∈ sf, s.relative_path = p := by
  rw [repos_matchTestFileToSource_def] at h
  rcases Option.map_eq_some'.mp h with ⟨s, hfind, hp⟩
  exact ⟨s, List.mem_of_find?_eq_some hfind, hp⟩

lemma rd_matchTestFileToSource_mem {sf : List RepoFile} {t : RepoFile}
    {p : String} (h : RD.matchTestFileToSource sf t = some p) :
    ∃ s ∈ sf, s.relative_path = p := by
  rw [rd_matchTestFileToSource_def] at h
  rcases Option.map_eq_some'.mp h with ⟨s, hfind, hp⟩
  exact ⟨s, List.mem_of_find?_eq_some hfind, hp⟩

lemma repos_matchGeneratedTest_mem {sf : List RepoFile}
    {analyses : List Analysis} {t : GeneratedTest} {f : RepoFile}
    (h : Repos.matchGeneratedTest sf analyses t = some f) : f ∈ sf := by
  unfold Repos.matchGeneratedTest at h
  split at h
  · split at h
    · exact List.mem_of_find?_eq_some h
    · exact Option.noConfusion h
  · exact Option.noConfusion h

lemma RD.matchViaAnalysisId_mem {sf : List RepoFile}
    {analyses : List Analysis} {t : GeneratedTest} {f : RepoFile}
    (h : RD.matchViaAnalysisId sf analyses t = some f) : f ∈ sf := by
  unfold RD.matchViaAnalysisId at h
  split at h
  · split at h
    · split at h
      · exact List.mem_of_find?_eq_some h
      · exact Option.noConfusion h
    · exact Option.noConfusion h
  · exact Option.noConfusion h

lemma RD.matchViaTestFilePath_mem {sf : List RepoFile} {t : GeneratedTest}
    {f : RepoFile} (h : RD.matchViaTestFilePath sf t = some f) :
    f ∈ sf := by
  rw [RD.matchViaTestFilePath_def] at h
  split at h
  · exact List.mem_of_find?_eq_some h
  · exact Option.noConfusion h

lemma rd_matchGeneratedTest_mem {sf : List RepoFile}
    {analyses : List Analysis} {t : GeneratedTest} {f : RepoFile}
    (h : RD.matchGeneratedTest sf analyses t = some f) : f ∈ sf := by
  unfold RD.matchGeneratedTest at h
  cases hva : RD.matchViaAnalysisId sf analyses t with
  | some g =>
      rw [hva] at h
      cases h
      exact RD.matchViaAnalysisId_mem hva
  | none =>
      rw [hva] at h
      exact RD.matchViaTestFilePath_mem h

lemma repos_coveredSourcePaths_subset (sf tf : List RepoFile)
    (tests : List GeneratedTest) (analyses : List Analysis) :
    Repos.coveredSourcePaths sf tf tests analyses
      ⊆ (sf.map fun f => f.relative_path).toFinset := by
  rw [repos_coveredSourcePaths_eq]
  intro p hp
  rw [List.mem_toFinset, List.mem_map]
  rcases Finset.mem_union.mp hp with hp1 | hp2
  · rcases List.mem_filterMap.mp (List.mem_toFinset.mp hp1) with ⟨t, -, hm⟩
    rcases repos_matchTestFileToSource_mem hm with ⟨s, hs, hsp⟩
    exact ⟨s, hs, hsp⟩
  · rcases List.mem_filterMap.mp (List.mem_toFinset.mp hp2) with ⟨t, -, hm⟩
    rcases Option.map_eq_some'.mp hm with ⟨f, hf, hfp⟩
    exact ⟨f, repos_matchGeneratedTest_mem hf, hfp⟩

lemma rd_coveredSourcePaths_subset (sf tf : List RepoFile)
    (tests : List GeneratedTest) (analyses : List Analysis) :
    RD.coveredSourcePaths sf tf tests analyses
      ⊆ (sf.map fun f => f.relative_path).toFinset := by
  rw [rd_coveredSourcePaths_eq]
  intro p hp
  rw [List.mem_toFinset, List.mem_map]
  rcases Finset.mem_union.mp hp with hp1 | hp2
  · rcases List.mem_filterMap.mp (List.mem_toFinset.mp hp1) with ⟨t, -, hm⟩
    rcases rd_matchTestFileToSource_mem hm with ⟨s, hs, hsp⟩
    exact ⟨s, hs, hsp⟩
  · rcases List.mem_filterMap.mp (List.mem_toFinset.mp hp2) with ⟨t, -, hm⟩
    rcases Option.map_eq_some'.mp hm with ⟨f, hf, hfp⟩
    exact ⟨f, rd_matchGeneratedTest_mem hf, hfp⟩

lemma repos_covered_card_le (sf tf : List RepoFile)
    (tests : List GeneratedTest) (analyses : List Analysis) :
    (Repos.coveredSourcePaths sf tf tests analyses).card ≤ sf.length := by
  calc (Repos.coveredSourcePaths sf tf tests analyses).card
      ≤ ((sf.map fun f => f.relative_path).toFinset).card :=
        Finset.card_le_card (repos_coveredSourcePaths_subset sf tf tests analyses)
    _ ≤ (sf.map fun f => f.relative_path).length := List.toFinset_card_le _
    _ = sf.length := List.length_map _ _

lemma rd_covered_card_le (sf tf : List RepoFile)
    (tests : List GeneratedTest) (analyses : List Analysis) :
    (RD.coveredSourcePaths sf tf tests analyses).card ≤ sf.length := by
  calc (RD.coveredSourcePaths sf tf tests analyses).card
      ≤ ((sf.map fun f => f.relative_path).toFinset).card :=
        Finset.card_le_card (rd_coveredSourcePaths_subset sf tf tests analyses)
    _ ≤ (sf.map fun f => f.relative_path).length := List.toFinset_card_le _
    _ = sf.length := List.length_map _ _

lemma coverage_formula_bounds (c n : Nat) (hcn : c ≤ n) :
    0 ≤ (if 0 < n then (c : ℚ) / (n : ℚ) * 100 else 0)
      ∧ (if 0 < n then (c : ℚ) / (n : ℚ) * 100 else 0) ≤ 100 := by
  by_cases hn : 0 < n
  · rw [if_pos hn]
    have hn0 : (0 : ℚ) < (n : ℚ) := by exact_mod_cast hn
    have hc0 : (0 : ℚ) ≤ (c : ℚ) := by positivity
    constructor
    · positivity
    · have h1 : (c : ℚ) / (n : ℚ) ≤ 1 := by
        rw [div_le_one hn0]
        exact_mod_cast hcn
      calc (c : ℚ) / (n : ℚ) * 100 ≤ 1 * 100 := by
            apply mul_le_mul_of_nonneg_right h1; norm_num
        _ = 100 := by norm_num
  · rw [if_neg hn]
    norm_num

/-! ## Case-variation congruence lemmas -/

lemma optionRel_map {α β : Type} {r : α → α → Prop} {rb : β → β → Prop}
    {g g' : α → β} (hg : ∀ a b, r a b → rb (g a) (g' b)) :
    ∀ {o o' : Option α}, Option.Rel r o o' →
      Option.Rel rb (o.map g) (o'.map g') := by
  intro o o' h
  cases h with
  | none => exact Option.Rel.none
  | some hab => exact Option.Rel.some (hg _ _ hab)

lemma forall₂_append {α : Type} {r : α → α → Prop} {l₁ l₂ u₁ u₂ : List α}
    (h1 : List.Forall₂ r l₁ l₂) (h2 : List.Forall₂ r u₁ u₂) :
    List.Forall₂ r (l₁ ++ u₁) (l₂ ++ u₂) := by
  induction h1 with
  | nil => exact h2
  | cons hab ht ih => exact List.Forall₂.cons hab ih

lemma caseVariant_empty_iff {a b : String} (h : caseVariant a b) :
    (a = "") ↔ (b = "") := by
  have hd : a.data.map Char.toLower = b.data.map Char.toLower :=
    congrArg String.data h
  have hl : a.data.length = b.data.length := by
    have h2 := congrArg List.length hd
    simpa using h2
  constructor
  · intro ha
    subst ha
    cases b with
    | mk d =>
        have h0 : d.length = 0 := by simpa using hl.symm
        have hd0 : d = [] := List.length_eq_zero.mp h0
        subst hd0
        rfl
  · intro hb
    subst hb
    cases a with
    | mk d =>
        have h0 : d.length = 0 := by simpa using hl
        have hd0 : d = [] := List.length_eq_zero.mp h0
        subst hd0
        rfl

lemma truthyStr_congr {x y : Option String} (h : optCaseVariant x y) :
    truthyStr x = truthyStr y := by
  cases x <;> cases y
  · rfl
  · exact absurd h (by simp [optCaseVariant])
  · exact absurd h (by simp [optCaseVariant])
  · rename_i a b
    have hiff := caseVariant_empty_iff (show caseVariant a b from h)
    rw [Bool.eq_iff_iff]
    simp only [truthyStr, bne_iff_ne, ne_eq]
    exact not_congr hiff

lemma optCaseVariant_getD {x y : Option String} (h : optCaseVariant x y) :
    toLowerStr (x.getD "") = toLowerStr (y.getD "") := by
  cases x <;> cases y
  · rfl
  · exact absurd h (by simp [optCaseVariant])
  · exact absurd h (by simp [optCaseVariant])
  · exact h

lemma repos_sourceMatches_congr (tn tp pot : String) {s s' : RepoFile}
    (h1 : toLowerStr s.name = toLowerStr s'.name)
    (h2 : toLowerStr s.relative_path = toLowerStr s'.relative_path) :
    Repos.sourceMatches tn tp pot s = Repos.sourceMatches tn tp pot s' := by
  simp only [Repos.sourceMatches, h1, h2]

lemma rd_sourceMatches_congr (tn tp pot : String) {s s' : RepoFile}
    (h1 : toLowerStr s.name = toLowerStr s'.name)
    (h2 : toLowerStr s.relative_path = toLowerStr s'.relative_path) :
    RD.sourceMatches tn tp pot s = RD.sourceMatches tn tp pot s' := by
  simp only [RD.sourceMatches, h1, h2]

lemma Repos.genMatches_congr (ap : String) {s s' : RepoFile}
    (h1 : toLowerStr s.name = toLowerStr s'.name)
    (h2 : toLowerStr s.relative_path = toLowerStr s'.relative_path) :
    Repos.genMatches ap s = Repos.genMatches ap s' := by
  simp only [Repos.genMatches, h1, h2]

lemma RD.genAnalysisMatches_congr (ap : String) {s s' : RepoFile}
    (h1 : toLowerStr s.name = toLowerStr s'.name)
    (h2 : toLowerStr s.relative_path = toLowerStr s'.relative_path) :
    RD.genAnalysisMatches ap s = RD.genAnalysisMatches ap s' := by
  simp only [RD.genAnalysisMatches, h1, h2]

lemma RD.genFallbackMatches_congr (tfp pot : String) {s s' : RepoFile}
    (h1 : toLowerStr s.name = toLowerStr s'.name)
    (h2 : toLowerStr s.relative_path = toLowerStr s'.relative_path) :
    RD.genFallbackMatches tfp pot s = RD.genFallbackMatches tfp pot s' := by
  simp only [RD.genFallbackMatches, h1, h2]

lemma repos_matchTestFileToSource_rel {sf sf' : List RepoFile}
    {t t' : RepoFile} (hs : List.Forall₂ fileVariant sf sf')
    (ht : fileVariant t t') :
    Option.Rel caseVariant (Repos.matchTestFileToSource sf t)
      (Repos.matchTestFileToSource sf' t') := by
  obtain ⟨h1, h2, -⟩ := ht
  rw [repos_matchTestFileToSource_def, repos_matchTestFileToSource_def,
    h1, h2]
  exact optionRel_map (fun a b hab => hab.2.1)
    (find?_rel hs fun a b hab =>
      repos_sourceMatches_congr _ _ _ hab.1 hab.2.1)

lemma rd_matchTestFileToSource_rel {sf sf' : List RepoFile}
    {t t' : RepoFile} (hs : List.Forall₂ fileVariant sf sf')
    (ht : fileVariant t t') :
    Option.Rel caseVariant (RD.matchTestFileToSource sf t)
      (RD.matchTestFileToSource sf' t') := by
  obtain ⟨h1, h2, -⟩ := ht
  rw [rd_matchTestFileToSource_def, rd_matchTestFileToSource_def, h1, h2]
  exact optionRel_map (fun a b hab => hab.2.1)
    (find?_rel hs fun a b hab =>
      rd_sourceMatches_congr _ _ _ hab.1 hab.2.1)

lemma repos_matchGeneratedTest_rel {sf sf' : List RepoFile}
    {analyses analyses' : List Analysis} {t t' : GeneratedTest}
    (hs : List.Forall₂ fileVariant sf sf')
    (ha : List.Forall₂ analysisVariant analyses analyses')
    (hid : t.analysis_id = t'.analysis_id) :
    Option.Rel fileVariant (Repos.matchGeneratedTest sf analyses t)
      (Repos.matchGeneratedTest sf' analyses' t') := by
  unfold Repos.matchGeneratedTest
  have hfind : Option.Rel analysisVariant
      (analyses.find? fun a => some a.id == t.analysis_id)
      (analyses'.find? fun a => some a.id == t'.analysis_id) :=
    find?_rel ha fun a b hab => by rw [hab.1, hid]
  revert hfind
  cases hfa : analyses.find? fun a => some a.id == t.analysis_id <;>
    cases hfb : analyses'.find? fun a => some a.id == t'.analysis_id <;>
      intro hfind
  · exact Option.Rel.none
  · cases hfind
  · cases hfind
  · cases hfind with
    | some hta =>
        rename_i ta ta'
        dsimp only
        by_cases hp : truthyStr ta.file_path = true
        · have hp' : truthyStr ta'.file_path = true := by
            rw [← truthyStr_congr hta.2]; exact hp
          rw [if_pos hp, if_pos hp', optCaseVariant_getD hta.2]
          exact find?_rel hs fun a b hab =>
            Repos.genMatches_congr _ hab.1 hab.2.1
        · have hp' : ¬ truthyStr ta'.file_path = true := by
            rw [← truthyStr_congr hta.2]; exact hp
          rw [if_neg hp, if_neg hp']
          exact Option.Rel.none

lemma RD.matchViaAnalysisId_rel {sf sf' : List RepoFile}
    {analyses analyses' : List Analysis} {t t' : GeneratedTest}
    (hs : List.Forall₂ fileVariant sf sf')
    (ha : List.Forall₂ analysisVariant analyses analyses')
    (hid : t.analysis_id = t'.analysis_id) :
    Option.Rel fileVariant (RD.matchViaAnalysisId sf analyses t)
      (RD.matchViaAnalysisId sf' analyses' t') := by
  unfold RD.matchViaAnalysisId
  by_cases hb : truthyNat t.analysis_id = true
  · have hb' : truthyNat t'.analysis_id = true := by rw [← hid]; exact hb
    rw [if_pos hb, if_pos hb']
    have hfind : Option.Rel analysisVariant
        (analyses.find? fun a => some a.id == t.analysis_id)
        (analyses'.find? fun a => some a.id == t'.analysis_id) :=
      find?_rel ha fun a b hab => by rw [hab.1, hid]
    revert hfind
    cases hfa : analyses.find? fun a => some a.id == t.analysis_id <;>
      cases hfb : analyses'.find? fun a => some a.id == t'.analysis_id <;>
        intro hfind
    · exact Option.Rel.none
    · cases hfind
    · cases hfind
    · cases hfind with
      | some hta =>
          rename_i ta ta'
          dsimp only
          by_cases hp : truthyStr ta.file_path = true
          · have hp' : truthyStr ta'.file_path = true := by
              rw [← truthyStr_congr hta.2]; exact hp
            rw [if_pos hp, if_pos hp', optCaseVariant_getD hta.2]
            exact find?_rel hs fun a b hab =>
              RD.genAnalysisMatches_congr _ hab.1 hab.2.1
          · have hp' : ¬ truthyStr ta'.file_path = true := by
              rw [← truthyStr_congr hta.2]; exact hp
            rw [if_neg hp, if_neg hp']
            exact Option.Rel.none
  · have hb' : ¬ truthyNat t'.analysis_id = true := by rw [← hid]; exact hb
    rw [if_neg hb, if_neg hb']
    exact Option.Rel.none

lemma RD.matchViaTestFilePath_rel {sf sf' : List RepoFile}
    {t t' : GeneratedTest} (hs : List.Forall₂ fileVariant sf sf')
    (htfp : optCaseVariant t.test_file_path t'.test_file_path) :
    Option.Rel fileVariant (RD.matchViaTestFilePath sf t)
      (RD.matchViaTestFilePath sf' t') := by
  rw [RD.matchViaTestFilePath_def, RD.matchViaTestFilePath_def]
  by_cases hb : truthyStr t.test_file_path = true
  · have hb' : truthyStr t'.test_file_path = true := by
      rw [← truthyStr_congr htfp]; exact hb
    rw [if_pos hb, if_pos hb', optCaseVariant_getD htfp]
    exact find?_rel hs fun a b hab =>
      RD.genFallbackMatches_congr _ _ hab.1 hab.2.1
  · have hb' : ¬ truthyStr t'.test_file_path = true := by
      rw [← truthyStr_congr htfp]; exact hb
    rw [if_neg hb, if_neg hb']
    exact Option.Rel.none

lemma rd_matchGeneratedTest_rel {sf sf' : List RepoFile}
    {analyses analyses' : List Analysis} {t t' : GeneratedTest}
    (hs : List.Forall₂ fileVariant sf sf')
    (ha : List.Forall₂ analysisVariant analyses analyses')
    (ht : genVariant t t') :
    Option.Rel fileVariant (RD.matchGeneratedTest sf analyses t)
      (RD.matchGeneratedTest sf' analyses' t') := by
  unfold RD.matchGeneratedTest
  have hvia := RD.matchViaAnalysisId_rel hs ha ht.1
  revert hvia
  cases hva : RD.matchViaAnalysisId sf analyses t <;>
    cases hvb : RD.matchViaAnalysisId sf' analyses' t' <;> intro hvia
  · exact RD.matchViaTestFilePath_rel hs ht.2
  · cases hvia
  · cases hvia
  · cases hvia with
    | some hf => exact Option.Rel.some hf

/-! ## Cardinality transfer under case variation -/

lemma list_toFinset_map {α β : Type} [DecidableEq α] [DecidableEq β]
    (g : α → β) (l : List α) :
    (l.map g).toFinset = l.toFinset.image g := by
  ext x
  simp [List.mem_toFinset, List.mem_map, Finset.mem_image]

lemma toFinset_card_eq_of_rel {L L' : List String}
    (h : List.Forall₂ caseVariant L L')
    (hinj : Set.InjOn toLowerStr {x | x ∈ L})
    (hinj2 : Set.InjOn toLowerStr {x | x ∈ L'}) :
    L.toFinset.card = L'.toFinset.card := by
  have hmap : L.map toLowerStr = L'.map toLowerStr :=
    forall₂_map_eq (fun a b hab => hab) h
  calc L.toFinset.card
      = (L.toFinset.image toLowerStr).card := by
        rw [Finset.card_image_of_injOn (by rw [List.coe_toFinset]; exact hinj)]
    _ = ((L.map toLowerStr).toFinset).card := by rw [list_toFinset_map]
    _ = ((L'.map toLowerStr).toFinset).card := by rw [hmap]
    _ = (L'.toFinset.image toLowerStr).card := by rw [list_toFinset_map]
    _ = L'.toFinset.card := by
        rw [Finset.card_image_of_injOn (by rw [List.coe_toFinset]; exact hinj2)]

lemma injOn_of_nodup_lower {sf : List RepoFile}
    (hd : (sf.map fun f => toLowerStr f.relative_path).Nodup)
    {L : List String}
    (hsub : ∀ p ∈ L, p ∈ sf.map fun f => f.relative_path) :
    Set.InjOn toLowerStr {x | x ∈ L} := by
  have hd2 : ((sf.map fun f => f.relative_path).map toLowerStr).Nodup := by
    rw [List.map_map]
    exact hd
  intro x hx y hy hxy
  exact List.inj_on_of_nodup_map hd2 (hsub x hx) (hsub y hy) hxy

/-- The two matched-path lists of the list page, concatenated (the covered
set is their `toFinset`). -/
def Repos.matchedPaths (sf tf : List RepoFile) (tests : List GeneratedTest)
    (analyses : List Analysis) : List String :=
  tf.filterMap (Repos.matchTestFileToSource sf)
    ++ tests.filterMap fun t =>
        (Repos.matchGeneratedTest sf analyses t).map fun f => f.relative_path

/-- The two matched-path lists of the details page, concatenated. -/
def RD.matchedPaths (sf tf : List RepoFile) (tests : List GeneratedTest)
    (analyses : List Analysis) : List String :=
  tf.filterMap (RD.matchTestFileToSource sf)
    ++ tests.filterMap fun t =>
        (RD.matchGeneratedTest sf analyses t).map fun f => f.relative_path

lemma repos_coveredSourcePaths_eq_matched (sf tf : List RepoFile)
    (tests : List GeneratedTest) (analyses : List Analysis) :
    Repos.coveredSourcePaths sf tf tests analyses
      = (Repos.matchedPaths sf tf tests analyses).toFinset := by
  rw [repos_coveredSourcePaths_eq, Repos.matchedPaths, List.toFinset_append]

lemma rd_coveredSourcePaths_eq_matched (sf tf : List RepoFile)
    (tests : List GeneratedTest) (analyses : List Analysis) :
    RD.coveredSourcePaths sf tf tests analyses
      = (RD.matchedPaths sf tf tests analyses).toFinset := by
  rw [rd_coveredSourcePaths_eq, RD.matchedPaths, List.toFinset_append]

lemma repos_matchedPaths_subset (sf tf : List RepoFile)
    (tests : List GeneratedTest) (analyses : List Analysis) :
    ∀ p ∈ Repos.matchedPaths sf tf tests analyses,
      p ∈ sf.map fun f => f.relative_path := by
  intro p hp
  rw [List.mem_map]
  rcases List.mem_append.mp hp with hp1 | hp2
  · rcases List.mem_filterMap.mp hp1 with ⟨t, -, hm⟩
    rcases repos_matchTestFileToSource_mem hm with ⟨s, hs, hsp⟩
    exact ⟨s, hs, hsp⟩
  · rcases List.mem_filterMap.mp hp2 with ⟨t, -, hm⟩
    rcases Option.map_eq_some'.mp hm with ⟨f, hf, hfp⟩
    exact ⟨f, repos_matchGeneratedTest_mem hf, hfp⟩

lemma rd_matchedPaths_subset (sf tf : List RepoFile)
    (tests : List GeneratedTest) (analyses : List Analysis) :
    ∀ p ∈ RD.matchedPaths sf tf tests analyses,
      p ∈ sf.map fun f => f.relative_path := by
  intro p hp
  rw [List.mem_map]
  rcases List.mem_append.mp hp with hp1 | hp2
  · rcases List.mem_filterMap.mp hp1 with ⟨t, -, hm⟩
    rcases rd_matchTestFileToSource_mem hm with ⟨s, hs, hsp⟩
    exact ⟨s, hs, hsp⟩
  · rcases List.mem_filterMap.mp hp2 with ⟨t, -, hm⟩
    rcases Option.map_eq_some'.mp hm with ⟨f, hf, hfp⟩
    exact ⟨f, rd_matchGeneratedTest_mem hf, hfp⟩

lemma repos_matchedPaths_rel {sf sf' tf tf' : List RepoFile}
    {tests tests' : List GeneratedTest} {analyses analyses' : List Analysis}
    (hsf : List.Forall₂ fileVariant sf sf')
    (htf : List.Forall₂ fileVariant tf tf')
    (hts : List.Forall₂ genVariant tests tests')
    (han : List.Forall₂ analysisVariant analyses analyses') :
    List.Forall₂ caseVariant (Repos.matchedPaths sf tf tests analyses)
      (Repos.matchedPaths sf' tf' tests' analyses') := by
  apply forall₂_append
  · exact filterMap_rel htf fun a b hab =>
      repos_matchTestFileToSource_rel hsf hab
  · exact filterMap_rel hts fun a b hab =>
      optionRel_map (fun f g hfg => hfg.2.1)
        (repos_matchGeneratedTest_rel hsf han hab.1)

lemma rd_matchedPaths_rel {sf sf' tf tf' : List RepoFile}
    {tests tests' : List GeneratedTest} {analyses analyses' : List Analysis}
    (hsf : List.Forall₂ fileVariant sf sf')
    (htf : List.Forall₂ fileVariant tf tf')
    (hts : List.Forall₂ genVariant tests tests')
    (han : List.Forall₂ analysisVariant analyses analyses') :
    List.Forall₂ caseVariant (RD.matchedPaths sf tf tests analyses)
      (RD.matchedPaths sf' tf' tests' analyses') := by
  apply forall₂_append
  · exact filterMap_rel htf fun a b hab =>
      rd_matchTestFileToSource_rel hsf hab
  · exact filterMap_rel hts fun a b hab =>
      optionRel_map (fun f g hfg => hfg.2.1)
        (rd_matchGeneratedTest_rel hsf han hab)

lemma rd_totalCoverage_eval (sf tf : List RepoFile)
    (tests : List GeneratedTest) (analyses : List Analysis) (c n : Nat)
    (hc : (RD.coveredSourcePaths sf tf tests analyses).card = c)
    (hn : sf.length = n) :
    RD.totalCoverage sf tf tests analyses
      = if 0 < n then (c : ℚ) / (n : ℚ) * 100 else 0 := by
  unfold RD.totalCoverage
  rw [hc, hn]

lemma repos_totalCoverage_eval (sf tf : List RepoFile)
    (tests : List GeneratedTest) (analyses : List Analysis) (c n : Nat)
    (hc : (Repos.coveredSourcePaths sf tf tests analyses).card = c)
    (hn : sf.length = n) :
    Repos.totalCoverage sf tf tests analyses
      = if 0 < n then (c : ℚ) / (n : ℚ) * 100 else 0 := by
  unfold Repos.totalCoverage
  rw [hc, hn]

/-! ## Concrete inputs used by the claim theorems -/

def exCalcSources : List RepoFile := [⟨"calc.py", "src/calc.py", ".py"⟩]

def exCalcTestFiles : List RepoFile :=
  [⟨"test_calc.py", "tests/test_calc.py", ".py"⟩]

def exHelpersSources : List RepoFile := [⟨"helpers.py", "src/helpers.py", ".py"⟩]

def exHelpersTestFiles : List RepoFile :=
  [⟨"helpers_test.py", "src/helpers_test.py", ".py"⟩]

def exC1Files : List RepoFile := [⟨"calc.py", "src/calc.py", ".py"⟩]

def exC1Gen : List GeneratedTest := [⟨none, some "tests/test_calc.py"⟩]

def exC2BadFile : RawFile := ⟨some "a.py", none, some ".py"⟩

def specTestPatterns : List String :=
  ["test_", "_test", ".test.", ".spec.", "tests/", "test/", "__test__",
   "spec/", "__tests__"]

/-! ## Claim theorems -/

/-- C1 (counterexample): on the single source file `src/calc.py` with no
test files and one generated-test record `{analysis_id: null,
test_file_path: "tests/test_calc.py"}` and no analyses, the
RepositoryDetails page computes 100 (its `test_file_path` fallback
matches) while the Repositories list page computes 0 (it has no such
fallback), so the two coverage computations do not agree on identical
inputs. -/
theorem C1_pages_disagree :
    RD.totalCoverage (RD.sourceFilesOf exC1Files) (RD.testFilesOf exC1Files)
        exC1Gen []
      ≠ Repos.totalCoverage (Repos.sourceFilesOf exC1Files)
          (Repos.testFilesOf exC1Files) exC1Gen [] := by
  rw [rd_totalCoverage_eval _ _ _ _ 1 1 (by decide) (by decide),
    repos_totalCoverage_eval _ _ _ _ 0 1 (by decide) (by decide)]
  norm_num

/-- C1 (amended): on identical inputs the two pages produce the same
source/test partition of the file list (their classifiers and extension
filters are identical), and when there are no test files and no
generated-test records their coverage numbers agree; their matchers
differ, so in general the covered sets and percentages may differ. -/
theorem C1_pages_common_core (files : List RepoFile)
    (tests : List GeneratedTest) (analyses : List Analysis) :
    (RD.sourceFilesOf files = Repos.sourceFilesOf files
      ∧ RD.testFilesOf files = Repos.testFilesOf files)
    ∧ (RD.testFilesOf files = [] → tests = [] →
        RD.totalCoverage (RD.sourceFilesOf files) (RD.testFilesOf files)
            tests analyses
          = Repos.totalCoverage (Repos.sourceFilesOf files)
              (Repos.testFilesOf files) tests analyses) := by
  refine ⟨⟨rfl, rfl⟩, ?_⟩
  intro htf hts
  subst hts
  have htf2 : Repos.testFilesOf files = [] := htf
  have hsrc : RD.sourceFilesOf files = Repos.sourceFilesOf files := rfl
  rw [htf, htf2, hsrc]
  rfl

/-- C1 (witness): the amended common-core statement applied to the
concrete one-file repository with no test artifacts. -/
theorem C1_pages_common_core_witness :
    RD.totalCoverage (RD.sourceFilesOf exC1Files) (RD.testFilesOf exC1Files)
        [] []
      = Repos.totalCoverage (Repos.sourceFilesOf exC1Files)
          (Repos.testFilesOf exC1Files) [] [] :=
  (C1_pages_common_core exC1Files [] []).2 (by decide) rfl

/-- C2: a file record whose `extension` passes the allow-list but whose
`relative_path` is missing makes the source/test partition throw (the
classifier calls `toLowerCase` on the undefined field) instead of
treating the record as not a test: the code violates the claim's
never-throw requirement. -/
theorem C2_missing_field_throws :
    RD.sourceFilesJS [exC2BadFile] = Except.error () := rfl

/-- C3: for every input, both pages' covered sets contain only relative
paths of the given source files, and both coverage percentages lie in
[0, 100]. -/
theorem C3_covered_subset_and_percentage_bounds (sf tf : List RepoFile)
    (tests : List GeneratedTest) (analyses : List Analysis) :
    (RD.coveredSourcePaths sf tf tests analyses
        ⊆ (sf.map fun f => f.relative_path).toFinset
      ∧ 0 ≤ RD.totalCoverage sf tf tests analyses
      ∧ RD.totalCoverage sf tf tests analyses ≤ 100)
    ∧ (Repos.coveredSourcePaths sf tf tests analyses
        ⊆ (sf.map fun f => f.relative_path).toFinset
      ∧ 0 ≤ Repos.totalCoverage sf tf tests analyses
      ∧ Repos.totalCoverage sf tf tests analyses ≤ 100) := by
  have hb1 := coverage_formula_bounds
    (RD.coveredSourcePaths sf tf tests analyses).card sf.length
    (rd_covered_card_le sf tf tests analyses)
  have hb2 := coverage_formula_bounds
    (Repos.coveredSourcePaths sf tf tests analyses).card sf.length
    (repos_covered_card_le sf tf tests analyses)
  exact ⟨⟨rd_coveredSourcePaths_subset sf tf tests analyses, hb1.1, hb1.2⟩,
    ⟨repos_coveredSourcePaths_subset sf tf tests analyses, hb2.1, hb2.2⟩⟩

/-- C4: with an empty source-file list both pages return a coverage of
exactly 0 whatever the test files, generated tests and analyses are (the
guard on `sourceFiles.length` avoids the division). -/
theorem C4_empty_sources_zero_coverage (tf : List RepoFile)
    (tests : List GeneratedTest) (analyses : List Analysis) :
    RD.totalCoverage [] tf tests analyses = 0
      ∧ Repos.totalCoverage [] tf tests analyses = 0 := ⟨rfl, rfl⟩

/-- C5: both pages use the same classifier, and it marks a file as a test
file exactly when the lower-cased relative path or the lower-cased file
name contains one of the nine distinct patterns of the spec; the
duplicates and ordering of the code's pattern list are irrelevant. -/
theorem C5_test_classifier_iff (filePath fileName : String) :
    RD.isTestFile filePath fileName = Repos.isTestFile filePath fileName
    ∧ (RD.isTestFile filePath fileName = true ↔
        ∃ p ∈ specTestPatterns,
          includes (toLowerStr filePath) p = true
            ∨ includes (toLowerStr fileName) p = true) := by
  constructor
  · rfl
  · simp only [RD.isTestFile, RD.testPatterns, specTestPatterns,
      List.any_eq_true, List.mem_cons, List.not_mem_nil, or_false,
      Bool.or_eq_true]
    constructor
    · rintro ⟨p, hp, hpp⟩
      exact ⟨p, by tauto, hpp⟩
    · rintro ⟨p, hp, hpp⟩
      exact ⟨p, by tauto, hpp⟩

def exC6Sources : List RepoFile :=
  [⟨"c.py", "src/c.py", ".py"⟩, ⟨"calc.py", "src/calc.py", ".py"⟩]

def exC6Test : RepoFile := ⟨"test_calc.py", "tests/test_calc.py", ".py"⟩

/-- C6 (counterexample): the test file `tests/test_calc.py` strips to
`calc.py`, the name of the source file `src/calc.py`, yet that source file
is not marked covered: `find` returns the earlier source file `src/c.py`,
which matches first through the loose path-containment rule, so only
`src/c.py` is covered. -/
theorem C6_strict_match_not_covered :
    ((⟨"calc.py", "src/calc.py", ".py"⟩ : RepoFile) ∈ exC6Sources
      ∧ toLowerStr (⟨"calc.py", "src/calc.py", ".py"⟩ : RepoFile).name
          = RD.potentialSourceName (toLowerStr exC6Test.name))
    ∧ (⟨"calc.py", "src/calc.py", ".py"⟩ : RepoFile).relative_path
        ∉ RD.coveredSourcePaths exC6Sources [exC6Test] [] [] := by decide

/-- C6 (amended): when some source file's lower-cased name equals the
normalized name of a test file in the list, the first source file that
matches that test file (under any of the matching rules) is marked
covered, so at least one source file is covered — but it need not be the
strictly-matching one.  The claim's concrete examples do hold: the
`calc.py`/`test_calc.py` repository has coverage 100, and
`helpers_test.py` next to `helpers.py` marks `src/helpers.py` covered. -/
theorem C6_first_match_covered :
    (∀ (sf tf : List RepoFile) (tests : List GeneratedTest)
        (analyses : List Analysis) (t s : RepoFile),
        t ∈ tf → s ∈ sf →
        toLowerStr s.name = RD.potentialSourceName (toLowerStr t.name) →
        ∃ f ∈ sf, f.relative_path ∈ RD.coveredSourcePaths sf tf tests analyses)
    ∧ RD.totalCoverage exCalcSources exCalcTestFiles [] [] = 100
    ∧ RD.coveredSourcePaths exHelpersSources exHelpersTestFiles [] []
        = {"src/helpers.py"} := by
  refine ⟨?_, ?_, by decide⟩
  · intro sf tf tests analyses t s ht hs heq
    have hsome : (sf.find? (RD.sourceMatches (toLowerStr t.name)
        (toLowerStr t.relative_path)
        (RD.potentialSourceName (toLowerStr t.name)))).isSome := by
      rw [List.find?_isSome]
      refine ⟨s, hs, ?_⟩
      simp only [RD.sourceMatches]
      rw [heq]
      simp
    rcases Option.isSome_iff_exists.mp hsome with ⟨s0, hfind⟩
    have hmatch : RD.matchTestFileToSource sf t = some s0.relative_path := by
      rw [rd_matchTestFileToSource_def, hfind]
      rfl
    refine ⟨s0, List.mem_of_find?_eq_some hfind, ?_⟩
    rw [rd_coveredSourcePaths_eq]
    apply Finset.mem_union_left
    rw [List.mem_toFinset, List.mem_filterMap]
    exact ⟨t, ht, hmatch⟩
  · rw [rd_totalCoverage_eval _ _ _ _ 1 1 (by decide) (by decide)]
    norm_num

/-- C6 (witness): the general covered-existence statement applied to the
two-source counterexample repository, with every hypothesis discharged by
computation. -/
theorem C6_first_match_covered_witness :
    ∃ f ∈ exC6Sources,
      f.relative_path ∈ RD.coveredSourcePaths exC6Sources [exC6Test] [] [] :=
  C6_first_match_covered.1 exC6Sources [exC6Test] [] [] exC6Test
    ⟨"calc.py", "src/calc.py", ".py"⟩ (by decide) (by decide) (by decide)

def exC7Sources : List RepoFile :=
  [⟨"calc.py", "src/calc.py", ".py"⟩, ⟨"util.py", "src/util.py", ".py"⟩]

def exC7TestFiles : List RepoFile :=
  [⟨"calc.test.js", "src/calc.test.js", ".js"⟩]

/-- C7 (counterexample): on the spec's Example-2 input the Repositories
list page computes 0, not 50: its matcher has no loose path-containment
rule, the normalized test name `calc.js` differs from `calc.py`, and the
directory rule compares base `calc.test` with `calc`, so nothing
matches. -/
theorem C7_list_page_not_fifty :
    Repos.totalCoverage exC7Sources exC7TestFiles [] [] = 0
    ∧ Repos.totalCoverage exC7Sources exC7TestFiles [] [] ≠ 50 := by
  rw [repos_totalCoverage_eval _ _ _ _ 0 2 (by decide) (by decide)]
  norm_num

/-- C7 (amended): on the Example-2 input the RepositoryDetails estimator
marks exactly `src/calc.py` covered — via its loose rule (the test path
contains the source base name `calc`), not via normalized-base equality —
and returns exactly 50; the Repositories list estimator returns 0. -/
theorem C7_details_fifty_list_zero :
    RD.coveredSourcePaths exC7Sources exC7TestFiles [] [] = {"src/calc.py"}
    ∧ RD.totalCoverage exC7Sources exC7TestFiles [] [] = 50
    ∧ Repos.totalCoverage exC7Sources exC7TestFiles [] [] = 0 := by
  refine ⟨by decide, ?_, ?_⟩
  · rw [rd_totalCoverage_eval _ _ _ _ 1 2 (by decide) (by decide)]
    norm_num
  · rw [repos_totalCoverage_eval _ _ _ _ 0 2 (by decide) (by decide)]
    norm_num

def exC8Sources : List RepoFile :=
  [⟨"b.py", "u/b.py", ".py"⟩, ⟨"b.py", "src/b.py", ".py"⟩]

def exC8Gen : GeneratedTest := ⟨some 9, none⟩

def exC8Analyses : List Analysis := [⟨9, some "src/b.py"⟩]

/-- C8 (counterexample): the generated test resolves through analysis 9 to
`src/b.py`, and the source file `src/b.py` satisfies the match condition
(the analysis path even equals its relative path), yet it is not marked
covered on either page: `find` returns the earlier source file `u/b.py`,
whose name `b.py` is contained in the analysis path. -/
theorem C8_qualifying_source_not_covered :
    ((⟨"b.py", "src/b.py", ".py"⟩ : RepoFile) ∈ exC8Sources
      ∧ exC8Analyses.find? (fun a => some a.id == exC8Gen.analysis_id)
          = some ⟨9, some "src/b.py"⟩
      ∧ toLowerStr ((some "src/b.py" : Option String).getD "")
          = toLowerStr (⟨"b.py", "src/b.py", ".py"⟩ : RepoFile).relative_path)
    ∧ (⟨"b.py", "src/b.py", ".py"⟩ : RepoFile).relative_path
        ∉ RD.coveredSourcePaths exC8Sources [] [exC8Gen] exC8Analyses
    ∧ (⟨"b.py", "src/b.py", ".py"⟩ : RepoFile).relative_path
        ∉ Repos.coveredSourcePaths exC8Sources [] [exC8Gen] exC8Analyses := by
  decide

def exC8Sources3 : List RepoFile :=
  [⟨"a.py", "src/a.py", ".py"⟩, ⟨"b.py", "src/b.py", ".py"⟩,
   ⟨"c.py", "src/c.py", ".py"⟩]

def exC8Gen9 : GeneratedTest := ⟨some 9, none⟩

def exC8Analyses9 : List Analysis := [⟨9, some "src/a.py"⟩]

/-- C8 (amended): whenever the generated-test matcher of either page
returns a source file for a record in the tests list, that file's
relative path is in the covered set — it is the first source file in
list order satisfying the match condition, not necessarily every
qualifying one.  On the spec's Example-3 input (three sources, one
generated test resolving to `src/a.py`), exactly `src/a.py` is covered
and both pages report 100/3 ≈ 33.3. -/
theorem C8_first_gen_match_covered :
    (∀ (sf tf : List RepoFile) (tests : List GeneratedTest)
        (analyses : List Analysis) (g : GeneratedTest) (f : RepoFile),
        g ∈ tests → RD.matchGeneratedTest sf analyses g = some f →
        f.relative_path ∈ RD.coveredSourcePaths sf tf tests analyses)
    ∧ (∀ (sf tf : List RepoFile) (tests : List GeneratedTest)
        (analyses : List Analysis) (g : GeneratedTest) (f : RepoFile),
        g ∈ tests → Repos.matchGeneratedTest sf analyses g = some f →
        f.relative_path ∈ Repos.coveredSourcePaths sf tf tests analyses)
    ∧ RD.coveredSourcePaths exC8Sources3 [] [exC8Gen9] exC8Analyses9
        = {"src/a.py"}
    ∧ RD.totalCoverage exC8Sources3 [] [exC8Gen9] exC8Analyses9 = 100 / 3
    ∧ Repos.totalCoverage exC8Sources3 [] [exC8Gen9] exC8Analyses9
        = 100 / 3 := by
  refine ⟨?_, ?_, by decide, ?_, ?_⟩
  · intro sf tf tests analyses g f hg hm
    rw [rd_coveredSourcePaths_eq]
    apply Finset.mem_union_right
    rw [List.mem_toFinset, List.mem_filterMap]
    exact ⟨g, hg, by rw [hm]; rfl⟩
  · intro sf tf tests analyses g f hg hm
    rw [repos_coveredSourcePaths_eq]
    apply Finset.mem_union_right
    rw [List.mem_toFinset, List.mem_filterMap]
    exact ⟨g, hg, by rw [hm]; rfl⟩
  · rw [rd_totalCoverage_eval _ _ _ _ 1 3 (by decide) (by decide)]
    norm_num
  · rw [repos_totalCoverage_eval _ _ _ _ 1 3 (by decide) (by decide)]
    norm_num

/-- C8 (witness): the first-match-covered statement applied to the
Example-3 input, with the matcher evaluated by computation. -/
theorem C8_first_gen_match_covered_witness :
    "src/a.py" ∈ RD.coveredSourcePaths exC8Sources3 [] [exC8Gen9]
        exC8Analyses9 :=
  C8_first_gen_match_covered.1 exC8Sources3 [] [exC8Gen9] exC8Analyses9
    exC8Gen9 ⟨"a.py", "src/a.py", ".py"⟩ (by decide) (by decide)

lemma union_opt_subset_card (T G : Finset String) (o : Option String) :
    T ∪ G ⊆ (T ∪ o.toList.toFinset) ∪ G
    ∧ ((T ∪ o.toList.toFinset) ∪ G).card ≤ (T ∪ G).card + 1 := by
  cases o with
  | none =>
      constructor
      · simp
      · simp
  | some p =>
      constructor
      · exact Finset.union_subset_union
          (Finset.subset_union_left) (Finset.Subset.refl G)
      · have he : (T ∪ (some p).toList.toFinset) ∪ G = insert p (T ∪ G) := by
          ext x
          simp [Option.toList]
          tauto
        rw [he]
        exact Finset.card_insert_le _ _

lemma coverage_mono (c1 c2 n : Nat) (h : c1 ≤ c2) :
    (if 0 < n then (c1 : ℚ) / (n : ℚ) * 100 else 0)
      ≤ (if 0 < n then (c2 : ℚ) / (n : ℚ) * 100 else 0) := by
  by_cases hn : 0 < n
  · simp only [if_pos hn]
    have hn0 : (0 : ℚ) < (n : ℚ) := by exact_mod_cast hn
    have hdiv : (c1 : ℚ) / (n : ℚ) ≤ (c2 : ℚ) / (n : ℚ) :=
      (div_le_div_iff_of_pos_right hn0).mpr (by exact_mod_cast h)
    exact mul_le_mul_of_nonneg_right hdiv (by norm_num)
  · simp only [if_neg hn]
    exact le_refl 0

/-- C9: appending one test file to the test-file list never removes
anything from the covered set, grows its cardinality by at most 1, and
never decreases the coverage percentage, on both pages. -/
theorem C9_coverage_monotone_append (sf tf : List RepoFile)
    (tests : List GeneratedTest) (analyses : List Analysis) (t : RepoFile) :
    (RD.coveredSourcePaths sf tf tests analyses
        ⊆ RD.coveredSourcePaths sf (tf ++ [t]) tests analyses
      ∧ (RD.coveredSourcePaths sf (tf ++ [t]) tests analyses).card
          ≤ (RD.coveredSourcePaths sf tf tests analyses).card + 1
      ∧ RD.totalCoverage sf tf tests analyses
          ≤ RD.totalCoverage sf (tf ++ [t]) tests analyses)
    ∧ (Repos.coveredSourcePaths sf tf tests analyses
        ⊆ Repos.coveredSourcePaths sf (tf ++ [t]) tests analyses
      ∧ (Repos.coveredSourcePaths sf (tf ++ [t]) tests analyses).card
          ≤ (Repos.coveredSourcePaths sf tf tests analyses).card + 1
      ∧ Repos.totalCoverage sf tf tests analyses
          ≤ Repos.totalCoverage sf (tf ++ [t]) tests analyses) := by
  have hRa : RD.coveredSourcePaths sf (tf ++ [t]) tests analyses
      = ((tf.filterMap (RD.matchTestFileToSource sf)).toFinset
          ∪ (RD.matchTestFileToSource sf t).toList.toFinset)
        ∪ (tests.filterMap fun x =>
            (RD.matchGeneratedTest sf analyses x).map
              fun f => f.relative_path).toFinset := by
    rw [rd_coveredSourcePaths_eq, filterMap_append_single,
      List.toFinset_append]
  have hRb := rd_coveredSourcePaths_eq sf tf tests analyses
  have hR := union_opt_subset_card
    (tf.filterMap (RD.matchTestFileToSource sf)).toFinset
    (tests.filterMap fun x =>
      (RD.matchGeneratedTest sf analyses x).map
        fun f => f.relative_path).toFinset
    (RD.matchTestFileToSource sf t)
  have hRsub : RD.coveredSourcePaths sf tf tests analyses
      ⊆ RD.coveredSourcePaths sf (tf ++ [t]) tests analyses := by
    rw [hRa, hRb]
    exact hR.1
  have hRcard : (RD.coveredSourcePaths sf (tf ++ [t]) tests analyses).card
      ≤ (RD.coveredSourcePaths sf tf tests analyses).card + 1 := by
    rw [hRa, hRb]
    exact hR.2
  have hPa : Repos.coveredSourcePaths sf (tf ++ [t]) tests analyses
      = ((tf.filterMap (Repos.matchTestFileToSource sf)).toFinset
          ∪ (Repos.matchTestFileToSource sf t).toList.toFinset)
        ∪ (tests.filterMap fun x =>
            (Repos.matchGeneratedTest sf analyses x).map
              fun f => f.relative_path).toFinset := by
    rw [repos_coveredSourcePaths_eq, filterMap_append_single,
      List.toFinset_append]
  have hPb := repos_coveredSourcePaths_eq sf tf tests analyses
  have hP := union_opt_subset_card
    (tf.filterMap (Repos.matchTestFileToSource sf)).toFinset
    (tests.filterMap fun x =>
      (Repos.matchGeneratedTest sf analyses x).map
        fun f => f.relative_path).toFinset
    (Repos.matchTestFileToSource sf t)
  have hPsub : Repos.coveredSourcePaths sf tf tests analyses
      ⊆ Repos.coveredSourcePaths sf (tf ++ [t]) tests analyses := by
    rw [hPa, hPb]
    exact hP.1
  have hPcard : (Repos.coveredSourcePaths sf (tf ++ [t]) tests analyses).card
      ≤ (Repos.coveredSourcePaths sf tf tests analyses).card + 1 := by
    rw [hPa, hPb]
    exact hP.2
  refine ⟨⟨hRsub, hRcard, ?_⟩, ⟨hPsub, hPcard, ?_⟩⟩
  · exact coverage_mono _ _ sf.length (Finset.card_le_card hRsub)
  · exact coverage_mono _ _ sf.length (Finset.card_le_card hPsub)

def exC10SourcesA : List RepoFile :=
  [⟨"a.py", "src/X.py", ".py"⟩, ⟨"b.py", "src/x.Py", ".py"⟩]

def exC10SourcesB : List RepoFile :=
  [⟨"a.py", "src/X.py", ".py"⟩, ⟨"b.py", "src/X.py", ".py"⟩]

def exC10TestFiles : List RepoFile :=
  [⟨"test_a.py", "tests/test_a.py", ".py"⟩,
   ⟨"test_b.py", "tests/test_b.py", ".py"⟩]

/-- C10 (counterexample): changing only the letter case of one source
file's `relative_path` (from `src/x.Py` to `src/X.py`) makes two distinct
covered paths collide in the set, dropping the details-page coverage from
100 to 50 — the matching decisions are case-blind, but the covered set
stores the original-case paths. -/
theorem C10_case_collision :
    List.Forall₂ fileVariant exC10SourcesA exC10SourcesB
    ∧ RD.totalCoverage exC10SourcesA exC10TestFiles [] [] = 100
    ∧ RD.totalCoverage exC10SourcesB exC10TestFiles [] [] = 50 := by
  refine ⟨?_, ?_, ?_⟩
  · refine List.Forall₂.cons ⟨rfl, rfl, rfl⟩ ?_
    refine List.Forall₂.cons ⟨rfl, rfl, rfl⟩ List.Forall₂.nil
  · rw [rd_totalCoverage_eval _ _ _ _ 2 2 (by decide) (by decide)]
    norm_num
  · rw [rd_totalCoverage_eval _ _ _ _ 1 2 (by decide) (by decide)]
    norm_num

/-- C10 (amended): every classification and matching comparison is made on
lower-cased copies, so under any case change of the file names, relative
paths, and analysis file paths (extensions and ids unchanged) both pages
make the same matching decisions; and provided the source files' relative
paths stay pairwise distinct after lower-casing, the covered-set
cardinality and the coverage percentage are unchanged.  (Without that
proviso a case change can merge two covered paths, as the counterexample
shows.) -/
theorem C10_case_invariance (sf sf' tf tf' : List RepoFile)
    (tests tests' : List GeneratedTest) (analyses analyses' : List Analysis)
    (hsf : List.Forall₂ fileVariant sf sf')
    (htf : List.Forall₂ fileVariant tf tf')
    (hts : List.Forall₂ genVariant tests tests')
    (han : List.Forall₂ analysisVariant analyses analyses')
    (hdist : (sf.map fun f => toLowerStr f.relative_path).Nodup) :
    ((RD.coveredSourcePaths sf tf tests analyses).card
        = (RD.coveredSourcePaths sf' tf' tests' analyses').card
      ∧ RD.totalCoverage sf tf tests analyses
          = RD.totalCoverage sf' tf' tests' analyses')
    ∧ ((Repos.coveredSourcePaths sf tf tests analyses).card
        = (Repos.coveredSourcePaths sf' tf' tests' analyses').card
      ∧ Repos.totalCoverage sf tf tests analyses
          = Repos.totalCoverage sf' tf' tests' analyses') := by
  have hlen : sf.length = sf'.length := hsf.length_eq
  have hdist2 : (sf'.map fun f => toLowerStr f.relative_path).Nodup := by
    rw [← forall₂_map_eq (fun a b hab => hab.2.1) hsf]
    exact hdist
  have hcardR : (RD.coveredSourcePaths sf tf tests analyses).card
      = (RD.coveredSourcePaths sf' tf' tests' analyses').card := by
    rw [rd_coveredSourcePaths_eq_matched, rd_coveredSourcePaths_eq_matched]
    exact toFinset_card_eq_of_rel (rd_matchedPaths_rel hsf htf hts han)
      (injOn_of_nodup_lower hdist (rd_matchedPaths_subset sf tf tests analyses))
      (injOn_of_nodup_lower hdist2
        (rd_matchedPaths_subset sf' tf' tests' analyses'))
  have hcardP : (Repos.coveredSourcePaths sf tf tests analyses).card
      = (Repos.coveredSourcePaths sf' tf' tests' analyses').card := by
    rw [repos_coveredSourcePaths_eq_matched,
      repos_coveredSourcePaths_eq_matched]
    exact toFinset_card_eq_of_rel (repos_matchedPaths_rel hsf htf hts han)
      (injOn_of_nodup_lower hdist
        (repos_matchedPaths_subset sf tf tests analyses))
      (injOn_of_nodup_lower hdist2
        (repos_matchedPaths_subset sf' tf' tests' analyses'))
  refine ⟨⟨hcardR, ?_⟩, ⟨hcardP, ?_⟩⟩
  · unfold RD.totalCoverage
    rw [hcardR, hlen]
  · unfold Repos.totalCoverage
    rw [hcardP, hlen]

def exC10WSources : List RepoFile := [⟨"Calc.py", "src/Calc.py", ".py"⟩]

def exC10WSources2 : List RepoFile := [⟨"calc.py", "SRC/CALC.PY", ".py"⟩]

def exC10WTestFiles : List RepoFile :=
  [⟨"TEST_calc.py", "tests/TEST_calc.py", ".py"⟩]

def exC10WTestFiles2 : List RepoFile :=
  [⟨"test_CALC.py", "Tests/test_CALC.py", ".py"⟩]

/-- C10 (witness): the invariance statement applied to a one-source
repository under an aggressive case change of every string field. -/
theorem C10_case_invariance_witness :
    RD.totalCoverage exC10WSources exC10WTestFiles [] []
      = RD.totalCoverage exC10WSources2 exC10WTestFiles2 [] [] :=
  ((C10_case_invariance exC10WSources exC10WSources2 exC10WTestFiles
      exC10WTestFiles2 [] [] [] []
      (List.Forall₂.cons ⟨rfl, rfl, rfl⟩ List.Forall₂.nil)
      (List.Forall₂.cons ⟨rfl, rfl, rfl⟩ List.Forall₂.nil)
      List.Forall₂.nil List.Forall₂.nil (by decide)).1).2
